import Mathlib

/-!
Verification of the capture → describe pipeline of the `dime-que-ves`
browser application, shallowly embedded in Lean 4.

The program has two parts:
* `src/services/geminiService.ts` — the description client: one function
  `describeImage` that strips the data-URL header from its input, issues a
  single request to the Gemini endpoint with a fixed Spanish instruction
  prompt, and converts any thrown error into an error-prefixed result
  string.  Module initialization throws when `API_KEY` is unset.
* `src/App.tsx` — the session controller: a linear UI state machine
  (`idle / camera_on / capturing / loading / result / error`) that owns the
  camera stream (`stopCamera`, `startCamera`), captures a frame
  (`handleCapture`), resets (`handleReset`) and speaks the result (`speak`).

JavaScript strings are embedded as Lean `String`; the remote call and the
camera acquisition are nondeterministic inputs, embedded as explicit outcome
parameters.  Thrown JS exceptions are embedded as `Except`.
-/

namespace DimeQueVes

/-- Model of a JavaScript thrown value: either an `Error` instance carrying a
message (`error instanceof Error`), or any other thrown value. -/
inductive Thrown : Type
  | errObj (message : String)
  | otherValue
deriving DecidableEq, Repr

/-- Outcome of the single remote `ai.models.generateContent` round-trip:
either it resolves with the response text, or it rejects with a thrown
value. -/
inductive RemoteOutcome : Type
  | success (text : String)
  | failure (thrown : Thrown)
deriving DecidableEq, Repr

/-- The remote call, as seen by `describeImage`'s `try` block: a resolved
promise yields `response.text`, a rejected one raises the thrown value. -/
def remoteCall : RemoteOutcome → Except Thrown String
  | .success t => .ok t
  | .failure e => .error e

/-- Boolean test that `p` is a prefix of `l`; used to embed the JavaScript
`String.prototype.startsWith` on the underlying character lists. -/
def charsLeadWith : List Char → List Char → Bool
  | [], _ => true
  | _ :: _, [] => false
  | a :: as, b :: bs => a = b && charsLeadWith as bs

/-- Embedding of JavaScript `s.startsWith(p)`. -/
def jsStartsWith (s p : String) : Bool :=
  charsLeadWith p.data s.data

/-- Embedding of JavaScript `String.prototype.split` with a one-character
separator, on character lists: splits at every occurrence of `c`, keeping
empty chunks, and `[] ↦ [[]]` just as `''.split(c)` is `['']`. -/
def splitOnCharList (c : Char) : List Char → List (List Char)
  | [] => [[]]
  | x :: xs =>
    if x = c then [] :: splitOnCharList c xs
    else
      match splitOnCharList c xs with
      | [] => [[x]]
      | y :: ys => (x :: y) :: ys

/-- Embedding of JavaScript `s.split(c)` for a one-character separator. -/
def jsSplit (c : Char) (s : String) : List String :=
  (splitOnCharList c s.data).map (fun l => String.mk l)

/-- The fixed instruction prompt of `describeImage` (`textPart.text` in
`geminiService.ts`); a constant, independent of the image input. -/
def fixedPrompt : String :=
  "Describe esta imagen en español de forma concisa pero detallada. Céntrate en los objetos principales, el entorno y cualquier acción que esté ocurriendo."

/-- The request `describeImage` sends to `ai.models.generateContent`: the
model name, the fixed instruction prompt, and the inline image payload.
`data` is `Option String` because `base64Image.split(',')[1]` is `undefined`
when the input has no comma. -/
structure GenRequest : Type where
  model : String
  prompt : String
  mimeType : String
  data : Option String
deriving DecidableEq, Repr

/-- The request built by the body of `describeImage` from its input:
`data` is `base64Image.split(',')[1]` (the chunk between the first and the
second comma, absent when there is no comma), the prompt and model are
fixed. -/
def buildRequest (base64Image : String) : GenRequest :=
  { model := "gemini-2.5-flash"
    prompt := fixedPrompt
    mimeType := "image/jpeg"
    data := (jsSplit ',' base64Image).get? 1 }

deriving instance DecidableEq for Except

/-- One run of `describeImage`: what the function returns to its caller
(`Except` distinguishes a returned string from a propagated exception) and
the request it sent to the remote endpoint (`none` would mean no call was
issued). -/
structure DescribeRun : Type where
  result : Except Thrown String
  sentRequest : Option GenRequest
deriving DecidableEq, Repr

/-- Embedding of `describeImage` from `src/services/geminiService.ts`.
The whole body sits in a `try`: it builds the request, awaits the remote
call, and returns `response.text`; the `catch` turns an `Error` into
`"Error al contactar la IA: " + message` and anything else into a fixed
unknown-error string.  Nothing before the remote call can throw, so the
request is always issued. -/
def describeImage (outcome : RemoteOutcome) (base64Image : String) :
    DescribeRun :=
  let req := buildRequest base64Image
  match remoteCall outcome with
  | .ok t => { result := .ok t, sentRequest := some req }
  | .error (.errObj m) =>
      { result := .ok ("Error al contactar la IA: " ++ m), sentRequest := some req }
  | .error .otherValue =>
      { result := .ok "Ocurrió un error desconocido al generar la descripción."
        sentRequest := some req }

/-- Module initialization of `geminiService.ts`: reads `process.env.API_KEY`
(`none` when the variable is absent) and throws
`"API_KEY environment variable not set"` when it is absent or empty
(JavaScript `!API_KEY`); otherwise yields the configured key. -/
def initGemini (apiKey : Option String) : Except String String :=
  match apiKey with
  | none => .error "API_KEY environment variable not set"
  | some k =>
      if k = "" then .error "API_KEY environment variable not set"
      else .ok k

/-- Loading the `geminiService` module: when initialization succeeds the
module exposes the `describeImage` function, otherwise the module throws and
no describe call can ever be made. -/
def loadGeminiModule (apiKey : Option String) :
    Except String (RemoteOutcome → String → DescribeRun) :=
  (initGemini apiKey).map (fun _ => describeImage)

/-- The UI state machine of `App.tsx`:
`type AppState = 'idle' | 'camera_on' | 'capturing' | 'loading' | 'result' | 'error'`. -/
inductive AppState : Type
  | idle
  | camera_on
  | capturing
  | loading
  | result
  | error
deriving DecidableEq, Repr

/-- The observable state of the `App` component together with the camera
resource it manipulates.  `appState`, `imageSrc`, `interpretation` and
`error` are the four React state hooks; `srcObject` is
`videoRef.current.srcObject`, holding the id of the acquired `MediaStream`
(`none` when no stream is attached); `stopEvents` is the log of
`stream.getTracks().forEach(track => track.stop())` calls, recording the id
of each stream whose tracks were stopped, in order; `nextId` numbers the
streams handed out by `getUserMedia`. -/
structure Sys : Type where
  appState : AppState
  imageSrc : Option String
  interpretation : String
  error : String
  srcObject : Option Nat
  stopEvents : List Nat
  nextId : Nat
deriving DecidableEq, Repr

/-- Embedding of `stopCamera` from `App.tsx`: when a stream is attached to
the video element, stop its tracks and detach it; otherwise do nothing. -/
def stopCamera (s : Sys) : Sys :=
  match s.srcObject with
  | some i => { s with stopEvents := s.stopEvents ++ [i], srcObject := none }
  | none => s

/-- Outcome of `navigator.mediaDevices.getUserMedia` inside `startCamera`:
a new stream, a `NotAllowedError` rejection, some other rejection, or an
unsupported browser (the `else` branch that throws locally). -/
inductive CamOutcome : Type
  | granted
  | notAllowed
  | otherFailure
  | unsupported
deriving DecidableEq, Repr

/-- Embedding of `startCamera` from `App.tsx`: first `stopCamera()` and
`setError('')`; on success the fresh stream is attached and the state
becomes `camera_on`; on any failure the catch block stores a message and
moves to `error`.  (The success path assumes the video element is mounted
and `play()` succeeds.) -/
def startCamera (cam : CamOutcome) (s : Sys) : Sys :=
  let s1 := stopCamera s
  let s2 := { s1 with error := "" }
  match cam with
  | .granted =>
      { s2 with srcObject := some s2.nextId, nextId := s2.nextId + 1,
                appState := .camera_on }
  | .notAllowed =>
      { s2 with
          error := "Camera permission denied. Please allow camera access in your browser settings."
          appState := .error }
  | .otherFailure =>
      { s2 with error := "Could not access the camera.", appState := .error }
  | .unsupported =>
      { s2 with error := "Could not access the camera.", appState := .error }

/-- Embedding of `handleCapture` from `App.tsx`.  `ctx` is whether the
video/canvas refs and the 2d context are available (`if (videoRef.current &&
canvasRef.current)` and `if (context)`); `dataUrl` is the JPEG data-URL the
canvas encodes; `outcome` is the remote call's outcome.  Returns the final
state and the sequence of `setAppState` calls made, in order.  The
`try/catch` around `interpretImage` (the service's `describeImage`) is kept
even though the client never rejects. -/
def handleCapture (outcome : RemoteOutcome) (ctx : Bool) (dataUrl : String)
    (s : Sys) : Sys × List AppState :=
  let s0 := { s with appState := .capturing }
  if ctx then
    let s1 := { s0 with imageSrc := some dataUrl }
    let s2 := stopCamera s1
    let s3 := { s2 with appState := .loading }
    match (describeImage outcome dataUrl).result with
    | .ok t =>
        ({ s3 with interpretation := t, appState := .result },
         [.capturing, .loading, .result])
    | .error _ =>
        ({ s3 with error := "Failed to interpret the image. Please try again."
                   appState := .error },
         [.capturing, .loading, .error])
  else (s0, [.capturing])

/-- Embedding of `handleReset` from `App.tsx`: stop the camera and clear
image, interpretation, error and state. -/
def handleReset (s : Sys) : Sys :=
  let s1 := stopCamera s
  { s1 with imageSrc := none, interpretation := "", error := "",
            appState := .idle }

/-- One user-or-environment-driven operation on the session: starting (or
retrying) the camera with a given acquisition outcome, capturing with a
given context availability and remote outcome, resetting, or unmounting the
component.  `App.tsx` registers no unmount cleanup that stops the camera
(its only `useEffect` installs a `voiceschanged` handler and returns no
cleanup), so `teardown` leaves the state — in particular the attached
stream — untouched. -/
inductive Op : Type
  | start (cam : CamOutcome)
  | capture (outcome : RemoteOutcome) (ctx : Bool) (dataUrl : String)
  | reset
  | teardown
deriving DecidableEq, Repr

/-- Apply one operation to the session state. -/
def applyOp (s : Sys) : Op → Sys
  | .start cam => startCamera cam s
  | .capture outcome ctx dataUrl => (handleCapture outcome ctx dataUrl s).1
  | .reset => handleReset s
  | .teardown => s

/-- Run a sequence of operations from a starting state. -/
def run (s : Sys) (ops : List Op) : Sys :=
  ops.foldl applyOp s

/-- The initial mounted state of the `App` component. -/
def initSys : Sys :=
  { appState := .idle, imageSrc := none, interpretation := "", error := ""
    srcObject := none, stopEvents := [], nextId := 0 }

/-- A speech-synthesis voice, as used by `speak`: only its BCP-47 language
tag matters to the selection logic (plus a name to tell voices apart). -/
structure Voice : Type where
  name : String
  lang : String
deriving DecidableEq, Repr

/-- The utterance `speak` hands to `window.speechSynthesis.speak`: the text,
the explicitly assigned voice (`none` means the platform default), the
language tag and the rate. -/
structure Utterance : Type where
  text : String
  voice : Option Voice
  lang : String
  rate : Nat
deriving DecidableEq, Repr

/-- The voice selection of `speak` in `App.tsx`:
`voices.find(v => v.lang.startsWith('es-')) || voices.find(v => v.lang.startsWith('es'))`. -/
def findSpanishVoice (voices : List Voice) : Option Voice :=
  match voices.find? (fun v => jsStartsWith v.lang "es-") with
  | some v => some v
  | none => voices.find? (fun v => jsStartsWith v.lang "es")

/-- Embedding of `speak` from `App.tsx`: returns the utterance handed to the
platform, or `none` when the guard
`if (!text || typeof window === 'undefined' || !window.speechSynthesis) return`
bails out (`synthAvailable` covers the two platform checks).  The chosen
Spanish voice is assigned when one exists; the language is always `es-ES`
and the rate `1`. -/
def speak (synthAvailable : Bool) (voices : List Voice) (text : String) :
    Option Utterance :=
  if text = "" ∨ synthAvailable = false then none
  else
    some { text := text, voice := findSpanishVoice voices, lang := "es-ES",
           rate := 1 }

/-! ## Helper lemmas about the embedded JavaScript string operations -/

/-- Unfolding the embedded `split` on a non-separator head character. -/
theorem splitOnCharList_cons_ne (c x : Char) (xs : List Char) (h : x ≠ c) :
    splitOnCharList c (x :: xs) =
      match splitOnCharList c xs with
      | [] => [[x]]
      | y :: ys => (x :: y) :: ys := by
  simp [splitOnCharList, h]

/-- Splitting a list that starts with a separator-free chunk followed by the
separator peels off exactly that chunk. -/
theorem splitOnCharList_append (c : Char) (l r : List Char) (h : c ∉ l) :
    splitOnCharList c (l ++ c :: r) = l :: splitOnCharList c r := by
  induction l with
  | nil => simp [splitOnCharList]
  | cons x xs ih =>
      have hx : x ≠ c := fun hxc => h (hxc ▸ List.mem_cons_self x xs)
      have hxs : c ∉ xs := fun hm => h (List.mem_cons_of_mem x hm)
      rw [List.cons_append, splitOnCharList_cons_ne c x _ hx, ih hxs]

/-- Splitting a separator-free list yields the single chunk. -/
theorem splitOnCharList_no_sep (c : Char) (l : List Char) (h : c ∉ l) :
    splitOnCharList c l = [l] := by
  induction l with
  | nil => rfl
  | cons x xs ih =>
      have hx : x ≠ c := fun hxc => h (hxc ▸ List.mem_cons_self x xs)
      have hxs : c ∉ xs := fun hm => h (List.mem_cons_of_mem x hm)
      rw [splitOnCharList_cons_ne c x _ hx, ih hxs]

/-- The embedded `split` on a data-URL made of a comma-free header, a comma
and a comma-free payload yields exactly `[header, payload]`. -/
theorem jsSplit_header_payload (hdr payload : String)
    (h1 : (',' : Char) ∉ hdr.data) (h2 : (',' : Char) ∉ payload.data) :
    jsSplit ',' (hdr ++ "," ++ payload) = [hdr, payload] := by
  have hdata : (hdr ++ "," ++ payload).data = hdr.data ++ ',' :: payload.data := by
    rw [String.data_append, String.data_append, List.append_assoc]
    rfl
  rw [jsSplit, hdata, splitOnCharList_append ',' hdr.data _ h1,
      splitOnCharList_no_sep ',' payload.data h2]
  rfl

/-- The embedded `split` on a comma-free string yields the single chunk. -/
theorem jsSplit_no_comma (s : String) (h : (',' : Char) ∉ s.data) :
    jsSplit ',' s = [s] := by
  rw [jsSplit, splitOnCharList_no_sep ',' s.data h]
  rfl

/-- A string with a nonempty first factor is nonempty. -/
theorem append_ne_empty_left (a b : String) (h : a.data ≠ []) : a ++ b ≠ "" := by
  intro hc
  apply h
  have hd := congrArg String.data hc
  rw [String.data_append] at hd
  simpa using (List.append_eq_nil.mp hd).1

/-! ## Claim theorems -/

/-- C2: on every well-formed data-URL input — a comma-free header, a comma,
and a comma-free base64 payload — `describeImage` builds its request with
`data` exactly the payload after the first comma, and the instruction prompt
of every request is the fixed constant `fixedPrompt`, independent of the
input. -/
theorem describe_sends_stripped_payload_and_fixed_prompt
    (hdr payload : String)
    (h1 : (',' : Char) ∉ hdr.data) (h2 : (',' : Char) ∉ payload.data) :
    buildRequest (hdr ++ "," ++ payload) =
      { model := "gemini-2.5-flash", prompt := fixedPrompt,
        mimeType := "image/jpeg", data := some payload } ∧
    ∀ s : String, (buildRequest s).prompt = fixedPrompt := by
  constructor
  · rw [buildRequest, jsSplit_header_payload hdr payload h1 h2]
    rfl
  · intro s
    rfl

/-- Witness for C2: a concrete data-URL whose payload is delivered verbatim. -/
theorem describe_sends_stripped_payload_witness :
    buildRequest ("data:image/jpeg;base64" ++ "," ++ "AAAA") =
      { model := "gemini-2.5-flash", prompt := fixedPrompt,
        mimeType := "image/jpeg", data := some "AAAA" } :=
  (describe_sends_stripped_payload_and_fixed_prompt
    "data:image/jpeg;base64" "AAAA" (by decide) (by decide)).1

/-- C3: `describeImage` never propagates an exception: for every input and
every remote outcome its result is a returned string, and when the remote
call throws it returns the thrown `Error`'s message behind the fixed error
label, or the fixed unknown-error message for a non-`Error` throw. -/
theorem describe_never_throws (o : RemoteOutcome) (input : String) :
    (∃ t : String, (describeImage o input).result = .ok t) ∧
    (∀ m : String, o = .failure (.errObj m) →
      (describeImage o input).result =
        .ok ("Error al contactar la IA: " ++ m)) ∧
    (o = .failure .otherValue →
      (describeImage o input).result =
        .ok "Ocurrió un error desconocido al generar la descripción.") := by
  refine ⟨?_, ?_, ?_⟩
  · cases o with
    | success t => exact ⟨t, rfl⟩
    | failure e =>
        cases e with
        | errObj m => exact ⟨"Error al contactar la IA: " ++ m, rfl⟩
        | otherValue =>
            exact ⟨"Ocurrió un error desconocido al generar la descripción.", rfl⟩
  · intro m hm
    subst hm
    rfl
  · intro hm
    subst hm
    rfl

/-- Witness for C3: a concrete failing remote call whose thrown message is
wrapped into the returned error string. -/
theorem describe_never_throws_witness :
    (describeImage (.failure (.errObj "boom")) "x").result =
      .ok ("Error al contactar la IA: " ++ "boom") :=
  (describe_never_throws (.failure (.errObj "boom")) "x").2.1 "boom" rfl

/-- C7: when `API_KEY` is absent from the environment, loading the
`geminiService` module throws `"API_KEY environment variable not set"`, so
no `describeImage` function is ever obtained and no describe call can be
made. -/
theorem missing_api_key_fatal_at_startup :
    loadGeminiModule none = .error "API_KEY environment variable not set" :=
  rfl

/-- C9: on a comma-free input the header-stripping step produces an absent
(`undefined`) payload, and `describeImage` still issues the remote call
with that absent payload, for every remote outcome, instead of rejecting
the input up front. -/
theorem describe_calls_with_undefined_payload (s : String)
    (h : (',' : Char) ∉ s.data) :
    (buildRequest s).data = none ∧
    ∀ o : RemoteOutcome, (describeImage o s).sentRequest = some (buildRequest s) := by
  constructor
  · rw [buildRequest, jsSplit_no_comma s h]
    rfl
  · intro o
    match o with
    | .success t => rfl
    | .failure (.errObj m) => rfl
    | .failure .otherValue => rfl

/-- Witness for C9: the comma-free input `"AAAA"` yields an absent payload
and the call is still issued. -/
theorem describe_calls_with_undefined_payload_witness :
    (buildRequest "AAAA").data = none ∧
    (describeImage (.success "t") "AAAA").sentRequest = some (buildRequest "AAAA") :=
  ⟨(describe_calls_with_undefined_payload "AAAA" (by decide)).1,
   (describe_calls_with_undefined_payload "AAAA" (by decide)).2 (.success "t")⟩

/-- `stopCamera` on a state with no attached stream is the identity. -/
theorem stopCamera_none (s : Sys) (h : s.srcObject = none) : stopCamera s = s := by
  rw [stopCamera, h]

/-- `stopCamera` on a state holding stream `i` stops its tracks once and
detaches it. -/
theorem stopCamera_some (s : Sys) (i : Nat) (h : s.srcObject = some i) :
    stopCamera s =
      { s with stopEvents := s.stopEvents ++ [i], srcObject := none } := by
  rw [stopCamera, h]

/-- After `stopCamera` the video element holds no stream. -/
theorem stopCamera_srcObject (s : Sys) : (stopCamera s).srcObject = none := by
  cases hso : s.srcObject with
  | none => rw [stopCamera_none s hso, hso]
  | some i => rw [stopCamera_some s i hso]

/-- `stopCamera` only touches the stream reference and the stop log. -/
theorem stopCamera_fields (s : Sys) :
    (stopCamera s).appState = s.appState ∧
    (stopCamera s).imageSrc = s.imageSrc ∧
    (stopCamera s).interpretation = s.interpretation ∧
    (stopCamera s).error = s.error ∧
    (stopCamera s).nextId = s.nextId := by
  cases hso : s.srcObject with
  | none => rw [stopCamera_none s hso]; exact ⟨rfl, rfl, rfl, rfl, rfl⟩
  | some i => rw [stopCamera_some s i hso]; exact ⟨rfl, rfl, rfl, rfl, rfl⟩

/-- Unfolding `handleCapture` on a successful remote call. -/
theorem handleCapture_success_eq (t dataUrl : String) (s : Sys) :
    handleCapture (.success t) true dataUrl s =
      ({ stopCamera { s with appState := .capturing, imageSrc := some dataUrl } with
          interpretation := t, appState := .result },
       [.capturing, .loading, .result]) := rfl

/-- Unfolding `handleCapture` when the remote call throws an `Error`. -/
theorem handleCapture_errObj_eq (m dataUrl : String) (s : Sys) :
    handleCapture (.failure (.errObj m)) true dataUrl s =
      ({ stopCamera { s with appState := .capturing, imageSrc := some dataUrl } with
          interpretation := "Error al contactar la IA: " ++ m,
          appState := .result },
       [.capturing, .loading, .result]) := rfl

/-- Unfolding `handleCapture` when the remote call throws a non-`Error`. -/
theorem handleCapture_otherThrow_eq (dataUrl : String) (s : Sys) :
    handleCapture (.failure .otherValue) true dataUrl s =
      ({ stopCamera { s with appState := .capturing, imageSrc := some dataUrl } with
          interpretation := "Ocurrió un error desconocido al generar la descripción.",
          appState := .result },
       [.capturing, .loading, .result]) := rfl

/-- C4: a capture whose remote call succeeds with text `t` sets the states
`capturing`, `loading`, `result` in exactly that order, and the stored
interpretation equals exactly the returned text, from every prior state. -/
theorem capture_success_state_sequence (s : Sys) (dataUrl t : String) :
    (handleCapture (.success t) true dataUrl s).2 =
      [.capturing, .loading, .result] ∧
    (handleCapture (.success t) true dataUrl s).1.appState = .result ∧
    (handleCapture (.success t) true dataUrl s).1.interpretation = t ∧
    (handleCapture (.success t) true dataUrl s).1.imageSrc = some dataUrl := by
  rw [handleCapture_success_eq]
  exact ⟨rfl, rfl, rfl, (stopCamera_fields _).2.1⟩

/-- C10: `stopCamera` is idempotent: after one invocation the video
element's stream reference is `null`, and a second invocation changes
nothing, so two invocations equal one on every starting state. -/
theorem stopCamera_idempotent (s : Sys) :
    (stopCamera s).srcObject = none ∧
    stopCamera (stopCamera s) = stopCamera s :=
  ⟨stopCamera_srcObject s,
   stopCamera_none (stopCamera s) (stopCamera_srcObject s)⟩

/-- C6: from every prior state, `handleReset` returns to `idle`, clears the
image to `null`, the interpretation and the error to the empty string, and
releases the camera: the stream reference becomes `null` and, when a stream
was held, one stop event for it is recorded. -/
theorem reset_clears_everything (s : Sys) :
    (handleReset s).appState = .idle ∧
    (handleReset s).imageSrc = none ∧
    (handleReset s).interpretation = "" ∧
    (handleReset s).error = "" ∧
    (handleReset s).srcObject = none ∧
    (∀ i, s.srcObject = some i →
      (handleReset s).stopEvents = s.stopEvents ++ [i]) ∧
    (s.srcObject = none → (handleReset s).stopEvents = s.stopEvents) := by
  have hred : handleReset s =
      { stopCamera s with imageSrc := none, interpretation := "", error := "",
                          appState := .idle } := rfl
  rw [hred]
  refine ⟨rfl, rfl, rfl, rfl, stopCamera_srcObject s, ?_, ?_⟩
  · intro i hi
    rw [stopCamera_some s i hi]
  · intro hn
    rw [stopCamera_none s hn]

/-- Witness for C6: resetting a state that holds stream `5` detaches it and
records exactly one stop event for it. -/
theorem reset_clears_everything_witness :
    (handleReset { appState := .result, imageSrc := some "u",
                   interpretation := "txt", error := "", srcObject := some 5,
                   stopEvents := [3], nextId := 6 }).stopEvents = [3] ++ [5] :=
  (reset_clears_everything _).2.2.2.2.2.1 5 rfl

/-- C1 counterexample: from a live-camera state, a capture whose remote call
fails with a thrown network `Error` leaves the session in `result` — not in
`error` — and the stored error message is the empty string (the failure
text is stored as the interpretation instead). -/
theorem capture_failure_not_error_state_cex :
    (handleCapture (.failure (.errObj "network down")) true
        "data:image/jpeg;base64,AAAA" (startCamera .granted initSys)).1.appState
      = AppState.result ∧
    (handleCapture (.failure (.errObj "network down")) true
        "data:image/jpeg;base64,AAAA" (startCamera .granted initSys)).1.appState
      ≠ AppState.error ∧
    (handleCapture (.failure (.errObj "network down")) true
        "data:image/jpeg;base64,AAAA" (startCamera .granted initSys)).1.error
      = "" := by
  refine ⟨rfl, by decide, rfl⟩

/-- C1 (amended): when the remote description call fails, the description
client converts the failure into a non-empty error-prefixed string, the
controller stores that string as the interpretation and transitions the
session to `result` (so the failure text is displayed and spoken as if it
were a description); the `error` field is left unchanged, and the `error`
state is not entered. -/
theorem capture_failure_shows_result_with_message (s : Sys)
    (dataUrl : String) (e : Thrown) :
    (handleCapture (.failure e) true dataUrl s).1.appState = .result ∧
    (handleCapture (.failure e) true dataUrl s).1.interpretation ≠ "" ∧
    (handleCapture (.failure e) true dataUrl s).1.error = s.error ∧
    (∀ m, e = .errObj m →
      (handleCapture (.failure e) true dataUrl s).1.interpretation =
        "Error al contactar la IA: " ++ m) := by
  cases e with
  | errObj m =>
      rw [handleCapture_errObj_eq]
      refine ⟨rfl, ?_, (stopCamera_fields _).2.2.2.1, ?_⟩
      · exact append_ne_empty_left _ m (by decide)
      · intro m' hm'
        cases hm'
        rfl
  | otherValue =>
      rw [handleCapture_otherThrow_eq]
      refine ⟨rfl, ?_, (stopCamera_fields _).2.2.2.1, ?_⟩
      · show ("Ocurrió un error desconocido al generar la descripción." : String) ≠ ""
        decide
      · intro m' hm'
        cases hm'

/-- Witness for C1 (amended): a concrete failing capture stores the labelled
message and reaches `result`. -/
theorem capture_failure_shows_result_witness :
    (handleCapture (.failure (.errObj "boom")) true "d" initSys).1.interpretation
      = "Error al contactar la IA: " ++ "boom" :=
  (capture_failure_shows_result_with_message initSys "d" (.errObj "boom")).2.2.2
    "boom" rfl

/-- The camera-resource invariant: no stream's tracks were ever stopped
twice, every logged stop belongs to a stream that `getUserMedia` actually
handed out, and a currently attached stream was handed out and not yet
stopped. -/
def CamInv (s : Sys) : Prop :=
  s.stopEvents.Nodup ∧
  (∀ i ∈ s.stopEvents, i < s.nextId) ∧
  (∀ i, s.srcObject = some i → i < s.nextId ∧ i ∉ s.stopEvents)

/-- `stopCamera` preserves the camera-resource invariant. -/
theorem camInv_stopCamera (s : Sys) (h : CamInv s) : CamInv (stopCamera s) := by
  obtain ⟨hnd, hbound, hheld⟩ := h
  cases hso : s.srcObject with
  | none =>
      rw [stopCamera_none s hso]
      exact ⟨hnd, hbound, hheld⟩
  | some i =>
      rw [stopCamera_some s i hso]
      obtain ⟨hilt, him⟩ := hheld i hso
      refine ⟨?_, ?_, ?_⟩
      · simp [List.nodup_append, hnd, him]
      · intro j hj
        rcases List.mem_append.mp hj with hj | hj
        · exact hbound j hj
        · have : j = i := by simpa using hj
          exact this ▸ hilt
      · intro j hj
        cases hj

/-- Every operation preserves the camera-resource invariant. -/
theorem camInv_applyOp (s : Sys) (op : Op) (h : CamInv s) :
    CamInv (applyOp s op) := by
  cases op with
  | start cam =>
      have h1 := camInv_stopCamera s h
      obtain ⟨hnd, hbound, hheld⟩ := h1
      cases cam with
      | granted =>
          refine ⟨hnd, ?_, ?_⟩
          · intro j hj
            exact Nat.lt_succ_of_lt (hbound j hj)
          · intro j hj
            cases hj
            refine ⟨Nat.lt_succ_self _, fun hmem => ?_⟩
            exact absurd (hbound _ hmem) (Nat.lt_irrefl _)
      | notAllowed =>
          refine ⟨hnd, hbound, ?_⟩
          intro j hj
          exact hheld j hj
      | otherFailure =>
          refine ⟨hnd, hbound, ?_⟩
          intro j hj
          exact hheld j hj
      | unsupported =>
          refine ⟨hnd, hbound, ?_⟩
          intro j hj
          exact hheld j hj
  | capture outcome ctx dataUrl =>
      cases ctx with
      | true =>
          have h1 := camInv_stopCamera
            { s with appState := .capturing, imageSrc := some dataUrl }
            ⟨h.1, h.2.1, h.2.2⟩
          obtain ⟨hnd, hbound, hheld⟩ := h1
          cases outcome with
          | success t => exact ⟨hnd, hbound, hheld⟩
          | failure e =>
              cases e with
              | errObj m => exact ⟨hnd, hbound, hheld⟩
              | otherValue => exact ⟨hnd, hbound, hheld⟩
      | false => exact ⟨h.1, h.2.1, h.2.2⟩
  | reset =>
      have h1 := camInv_stopCamera s h
      exact ⟨h1.1, h1.2.1, h1.2.2⟩
  | teardown => exact h

/-- Running any operation sequence preserves the camera-resource
invariant. -/
theorem camInv_run (ops : List Op) (s : Sys) (h : CamInv s) :
    CamInv (run s ops) := by
  induction ops generalizing s with
  | nil => exact h
  | cons op rest ih => exact ih (applyOp s op) (camInv_applyOp s op h)

/-- The initial state satisfies the camera-resource invariant. -/
theorem camInv_initSys : CamInv initSys := by
  refine ⟨List.nodup_nil, ?_, ?_⟩
  · intro i hi
    cases hi
  · intro i hi
    cases hi

/-- C5 counterexample: acquiring the camera once and then unmounting the
component leaves the acquired stream attached with zero stop events — the
release is not invoked for it, because `App.tsx` registers no unmount
cleanup.  So release is not invoked exactly once per acquired stream on
every capture/retry/reset/teardown sequence. -/
theorem teardown_leaks_stream_cex :
    (run initSys [Op.start .granted, Op.teardown]).srcObject = some 0 ∧
    (run initSys [Op.start .granted, Op.teardown]).stopEvents = [] := by
  exact ⟨rfl, rfl⟩

/-- C5 (amended): across every sequence of capture, retry, reset and
teardown operations, each acquired stream's tracks are stopped at most once
(the stop log never repeats a stream and only names streams that were
handed out), and a stream still attached has not been stopped — so there is
no double-free; but component teardown performs no release, so a stream
still attached when the component unmounts is leaked. -/
theorem camera_released_at_most_once (ops : List Op) :
    (run initSys ops).stopEvents.Nodup ∧
    (∀ i ∈ (run initSys ops).stopEvents, i < (run initSys ops).nextId) ∧
    (∀ i, (run initSys ops).srcObject = some i →
      i ∉ (run initSys ops).stopEvents) := by
  have h := camInv_run ops initSys camInv_initSys
  exact ⟨h.1, h.2.1, fun i hi => (h.2.2 i hi).2⟩

/-- Witness for C5 (amended): after one grant the stop log is duplicate-free
and the attached stream `0` has not been stopped. -/
theorem camera_released_at_most_once_witness :
    (run initSys [Op.start .granted]).stopEvents.Nodup ∧
    0 ∉ (run initSys [Op.start .granted]).stopEvents :=
  ⟨(camera_released_at_most_once [Op.start .granted]).1,
   (camera_released_at_most_once [Op.start .granted]).2.2 0 rfl⟩

/-- A language tag beginning with `es-` also begins with `es`. -/
theorem startsWith_es_of_es_dash (l : String)
    (h : jsStartsWith l "es-" = true) : jsStartsWith l "es" = true := by
  rw [jsStartsWith] at h ⊢
  match hcs : l.data with
  | [] => rw [hcs] at h; simp [charsLeadWith] at h
  | [a] => rw [hcs] at h; simp [charsLeadWith] at h
  | a :: b :: rest =>
      rw [hcs] at h
      simp only [charsLeadWith, Bool.and_eq_true, decide_eq_true_eq] at h ⊢
      exact ⟨h.1, h.2.1, trivial⟩

/-- C8: whenever `speak` runs on a non-empty text with speech synthesis
available, if any available voice's language tag starts with `es` the
utterance is assigned a voice whose tag starts with `es` (and one whose tag
starts with `es-` whenever such a voice exists); if no voice's tag starts
with `es`, speech still proceeds with no explicit voice and with language
`es-ES` at rate 1. -/
theorem speak_prefers_spanish_voice (voices : List Voice) (text : String)
    (htext : text ≠ "") :
    ((∃ v ∈ voices, jsStartsWith v.lang "es" = true) →
      ∃ u v, speak true voices text = some u ∧ u.voice = some v ∧
        jsStartsWith v.lang "es" = true ∧ u.lang = "es-ES" ∧ u.text = text) ∧
    ((∃ v ∈ voices, jsStartsWith v.lang "es-" = true) →
      ∃ u v, speak true voices text = some u ∧ u.voice = some v ∧
        jsStartsWith v.lang "es-" = true) ∧
    ((∀ v ∈ voices, jsStartsWith v.lang "es" = false) →
      speak true voices text =
        some { text := text, voice := none, lang := "es-ES", rate := 1 }) := by
  have hspeak : speak true voices text =
      some { text := text, voice := findSpanishVoice voices, lang := "es-ES",
             rate := 1 } := by
    rw [speak, if_neg]
    simp [htext]
  refine ⟨?_, ?_, ?_⟩
  · intro hex
    cases hfd : voices.find? (fun v => jsStartsWith v.lang "es-") with
    | some v =>
        refine ⟨_, v, hspeak, ?_, ?_, rfl, rfl⟩
        · show findSpanishVoice voices = some v
          rw [findSpanishVoice, hfd]
        · exact startsWith_es_of_es_dash v.lang (by simpa using List.find?_some hfd)
    | none =>
        have hsome : (voices.find? (fun v => jsStartsWith v.lang "es")).isSome := by
          rw [List.find?_isSome]
          obtain ⟨v, hv, hvp⟩ := hex
          exact ⟨v, hv, hvp⟩
        obtain ⟨w, hw⟩ := Option.isSome_iff_exists.mp hsome
        refine ⟨_, w, hspeak, ?_, ?_, rfl, rfl⟩
        · show findSpanishVoice voices = some w
          rw [findSpanishVoice, hfd, hw]
        · simpa using List.find?_some hw
  · intro hex
    have hsome : (voices.find? (fun v => jsStartsWith v.lang "es-")).isSome := by
      rw [List.find?_isSome]
      obtain ⟨v, hv, hvp⟩ := hex
      exact ⟨v, hv, hvp⟩
    obtain ⟨w, hw⟩ := Option.isSome_iff_exists.mp hsome
    refine ⟨_, w, hspeak, ?_, ?_⟩
    · show findSpanishVoice voices = some w
      rw [findSpanishVoice, hw]
    · simpa using List.find?_some hw
  · intro hall
    have h2 : voices.find? (fun v => jsStartsWith v.lang "es") = none := by
      rw [List.find?_eq_none]
      intro v hv
      simp [hall v hv]
    have h1 : voices.find? (fun v => jsStartsWith v.lang "es-") = none := by
      rw [List.find?_eq_none]
      intro v hv
      intro hcon
      have := startsWith_es_of_es_dash v.lang (by simpa using hcon)
      rw [hall v hv] at this
      cases this
    rw [hspeak, findSpanishVoice, h1, h2]

/-- Witness for C8: with one `es-ES` voice available, `speak` picks it. -/
theorem speak_prefers_spanish_voice_witness :
    ∃ u v, speak true [Voice.mk "Conchita" "es-ES"] "hola" = some u ∧
      u.voice = some v ∧ jsStartsWith v.lang "es" = true ∧
      u.lang = "es-ES" ∧ u.text = "hola" :=
  (speak_prefers_spanish_voice [Voice.mk "Conchita" "es-ES"] "hola"
      (by decide)).1
    ⟨Voice.mk "Conchita" "es-ES", by decide⟩

end DimeQueVes
